import Mathlib

/-!
Shallow embedding of the order-allocation engine of this repository
(`app.py`, class `ProcesadorPedidos`; the vectorised variant lives in
`application/use_cases.py`, class `ProcesarPedidosUseCase`).

Quantities are modelled as `Int` (the source works on pandas float cells
holding whole quantities); a stock pool (`mapa_inventario`,
`mapa_transito`) is a partial map from material identifier to remaining
quantity — membership in the Python dict is observable (`material in
mapa_inventario`), hence `Pool := Nat → Option Int`.
-/

namespace Truper

/-- One raw order row, with the columns the engine reads. -/
structure Linea where
  docVentas : Nat
  solic : Nat
  descripcion : String
  nombre1 : String
  material : Nat
  tipoMaterial : String
  planta : String
  pendiente : Int
  embarque : Nat
  liberacion : Nat
  muestra : String
deriving DecidableEq, Repr

/-- A stock pool: `mapa_inventario` / `mapa_transito` in `procesar`. -/
def Pool : Type := Nat → Option Int

/-- The empty pool (no material has an entry). -/
def poolVacio : Pool := fun _ => none

/-- `mapa[material] = v` — Python dict assignment at an existing key. -/
def actualizar (p : Pool) (m : Nat) (v : Int) : Pool :=
  fun m2 => if m2 = m then some v else p m2

/-- One processed order row: the computed columns of step 7 of `procesar`
(`Inventario`, `Tránsito`, `Faltante`, `Faltante Tránsito`, `Estatus`,
`Horario Entrega`). -/
structure Resultado where
  linea : Linea
  inventario : Int
  transito : Int
  faltante : Int
  faltanteTransito : Int
  estatus : String
  horarioEntrega : String
deriving DecidableEq, Repr

/-- Lines 152–159 of `app.py`: the bypass tag (`Horario Entrega`) set by
the `Tipo material == 'ZCOM'` / `Planta == 'P5'` branch; empty when the
branch does not fire (the column is initialised to the empty string). -/
def horarioBypass (l : Linea) : String :=
  if l.tipoMaterial = "ZCOM" then "ZCOM"
  else if l.planta = "P5" then "P5/Expo"
  else ""

/-- Lines 161–169 of `app.py`: the on-hand step for one row. Returns
(observed `Inventario`, `Faltante`, updated on-hand pool). When the
material is absent from the dict the branch does not run: the initialised
values (0, 0) stand and the pool is untouched. -/
def pasoInventario (inv : Pool) (l : Linea) : Int × Int × Pool :=
  match inv l.material with
  | some disponible =>
      if l.pendiente ≤ disponible then
        (disponible, 0, actualizar inv l.material (disponible - l.pendiente))
      else
        (disponible, l.pendiente - disponible, actualizar inv l.material 0)
  | none => (0, 0, inv)

/-- Lines 171–181 of `app.py`: the in-transit step for one row, fed the
current `Faltante` value. Returns (observed `Tránsito`,
`Faltante Tránsito`, updated in-transit pool). -/
def pasoTransito (tra : Pool) (mat : Nat) (falt : Int) : Int × Int × Pool :=
  match tra mat with
  | some transito =>
      if falt ≤ transito then
        (transito, 0, actualizar tra mat (transito - falt))
      else
        (transito, falt - transito, actualizar tra mat 0)
  | none => (0, 0, tra)

/-- The state after one iteration of the loop at lines 148–181. -/
structure Paso where
  resultado : Resultado
  inv : Pool
  tra : Pool

/-- One iteration of the row loop (lines 148–181 of `app.py`): bypass tag,
then on-hand allocation, then in-transit allocation.  Note the source has
no `continue`: the two allocation blocks run also for bypassed rows. -/
def procesarLinea (inv tra : Pool) (l : Linea) : Paso :=
  let hor := horarioBypass l
  let pi := pasoInventario inv l
  let pt := pasoTransito tra l.material pi.2.1
  { resultado :=
      { linea := l, inventario := pi.1, transito := pt.1,
        faltante := pi.2.1, faltanteTransito := pt.2.1,
        estatus := "", horarioEntrega := hor },
    inv := pi.2.2, tra := pt.2.2 }

/-- The whole loop of step 7: rows processed in order, threading both
pools. Returns the processed rows and the final pools. -/
def procesarLineas : List Linea → Pool → Pool → List Resultado × Pool × Pool
  | [], inv, tra => ([], inv, tra)
  | l :: ls, inv, tra =>
    let p := procesarLinea inv tra l
    let rest := procesarLineas ls p.inv p.tra
    (p.resultado :: rest.1, rest.2)

/-- `pedidos.groupby('Pedido')['Faltante Tránsito'].sum()` at one order
identifier (line 188 of `app.py`). -/
def sumaFaltantesTransito (rs : List Resultado) (pedido : Nat) : Int :=
  ((rs.filter (fun r => decide (r.linea.docVentas = pedido))).map
    (fun r => r.faltanteTransito)).sum

/-- Lines 188–195 of `app.py` applied to one row: `Estatus` is `Completo`
when the order's summed `Faltante Tránsito` is zero, else `Incompleto`;
`Horario Entrega` is overwritten with `Transito` when
`Faltante > 0` and `Faltante Tránsito == 0`. -/
def finalizarResultado (rs : List Resultado) (r : Resultado) : Resultado :=
  { r with
    estatus :=
      if sumaFaltantesTransito rs r.linea.docVentas = 0 then "Completo"
      else "Incompleto",
    horarioEntrega :=
      if 0 < r.faltante ∧ r.faltanteTransito = 0 then "Transito"
      else r.horarioEntrega }

/-- Step 9 of `procesar` over the whole processed table. -/
def aplicarEstatus (rs : List Resultado) : List Resultado :=
  rs.map (finalizarResultado rs)

/-- Steps 7 and 9 of `procesar` composed: allocation pass then
status/tag pass, returning the final table and the final pools. -/
def ejecutar (ls : List Linea) (inv tra : Pool) :
    List Resultado × Pool × Pool :=
  let p := procesarLineas ls inv tra
  (aplicarEstatus p.1, p.2.1, p.2.2)

/-! ### Allocation amounts (for the conservation law)

The source never stores the allocated amounts; the quantity a row takes
from a pool is the pool's decrease at the row's material, which for the
on-hand step is `min available requested` and for the in-transit step is
`min transit shortage` (zero when the material is absent). -/

/-- On-hand quantity allocated to one row. -/
def asignadoInv (inv : Pool) (l : Linea) : Int :=
  match inv l.material with
  | some disponible => min disponible l.pendiente
  | none => 0

/-- In-transit quantity allocated to one row (covers the `Faltante`
produced by the on-hand step). -/
def asignadoTra (inv tra : Pool) (l : Linea) : Int :=
  match tra l.material with
  | some transito => min transito (pasoInventario inv l).2.1
  | none => 0

/-- Total on-hand quantity allocated to material `m` across a run. -/
def asignacionesInv : List Linea → Pool → Pool → Nat → Int
  | [], _, _, _ => 0
  | l :: ls, inv, tra, m =>
    (if l.material = m then asignadoInv inv l else 0) +
      asignacionesInv ls (procesarLinea inv tra l).inv
        (procesarLinea inv tra l).tra m

/-- Total in-transit quantity allocated to material `m` across a run. -/
def asignacionesTra : List Linea → Pool → Pool → Nat → Int
  | [], _, _, _ => 0
  | l :: ls, inv, tra, m =>
    (if l.material = m then asignadoTra inv tra l else 0) +
      asignacionesTra ls (procesarLinea inv tra l).inv
        (procesarLinea inv tra l).tra m

/-! ### Record Normalizer (steps 2, 4 and 5 of `procesar`) -/

/-- `MARCAS_PERMITIDAS` of `ProcesadorPedidos`. -/
def MARCAS_PERMITIDAS : List String :=
  ["Marca privada Exp.", "Producto de Catálogo Americano"]

/-- Step 2 of `procesar` (lines 108–112): keep rows not flagged as
sample, with an allow-listed brand, whose customer name does not contain
the excluded substring. -/
def filtrarPedidos (ls : List Linea) : List Linea :=
  ls.filter (fun l =>
    decide (l.muestra ≠ "X") &&
    decide (l.descripcion ∈ MARCAS_PERMITIDAS) &&
    ! decide ("James Palin".toList <:+: l.nombre1.toList))

/-- `dict(zip(bd_brand['Solic.'], bd_brand['Marca']))` — on duplicate
keys the last pair wins. -/
def buscarMarca (bd : List (Nat × String)) (s : Nat) : Option String :=
  ((bd.filter (fun p => decide (p.1 = s))).getLast?).map (fun p => p.2)

/-- Step 4 of `procesar` (lines 126–127): override the brand from the
BD-Brand table when the requester id is mapped, else keep the original. -/
def aplicarMarcas (bd : List (Nat × String)) (ls : List Linea) : List Linea :=
  ls.map (fun l =>
    match buscarMarca bd l.solic with
    | some m => { l with descripcion := m }
    | none => l)

/-- `Marca Prioridad` (lines 130–132): 0 for the American-catalog brand,
1 otherwise. -/
def marcaPrioridad (l : Linea) : Nat :=
  if l.descripcion = "Producto de Catálogo Americano" then 0 else 1

/-- The sort key of line 133: (`Embarque`, `Doc.ventas`, `Marca
Prioridad`), compared lexicographically. -/
def claveOrden (l : Linea) : Nat × Nat × Nat :=
  (l.embarque, l.docVentas, marcaPrioridad l)

/-- Lexicographic order on the sort key. -/
def lexLe (a b : Nat × Nat × Nat) : Prop :=
  a.1 < b.1 ∨ (a.1 = b.1 ∧
    (a.2.1 < b.2.1 ∨ (a.2.1 = b.2.1 ∧ a.2.2 ≤ b.2.2)))

instance (a b : Nat × Nat × Nat) : Decidable (lexLe a b) := by
  unfold lexLe; infer_instance

/-- The row order induced by the sort key. -/
def claveLe (a b : Linea) : Prop := lexLe (claveOrden a) (claveOrden b)

instance (a b : Linea) : Decidable (claveLe a b) := by
  unfold claveLe; infer_instance

instance : IsTotal Linea claveLe :=
  ⟨fun a b => by unfold claveLe lexLe; omega⟩

instance : IsTrans Linea claveLe :=
  ⟨fun a b c h1 h2 => by
    unfold claveLe lexLe at h1 h2 ⊢; omega⟩

/-- Step 5 of `procesar` (line 133): `sort_values(['Embarque',
'Doc.ventas', 'Marca Prioridad'])`.  A pandas multi-column sort is a
stable lexicographic sort (`np.lexsort`); its unique stable realisation
is insertion sort under `claveLe`. -/
def ordenarPedidos (ls : List Linea) : List Linea :=
  List.insertionSort claveLe ls

/-- Steps 2, 4 and 5 of `procesar` composed: filter, brand override,
deterministic ordering. -/
def normalizar (ls : List Linea) (bd : List (Nat × String)) : List Linea :=
  ordenarPedidos (aplicarMarcas bd (filtrarPedidos ls))

/-! ### Stock Ledger (step 3 of `procesar`, lines 115–123) -/

/-- One raw inventory row, with the columns the ledger reads. -/
structure RegistroInv where
  material : Nat
  centro : String
  carac : String
  disponible : Int
  traslado : Int
deriving DecidableEq, Repr

/-- Line 115: drop rows whose `Carac. Planif.` is the sentinel `ND`. -/
def filtrarND (recs : List RegistroInv) : List RegistroInv :=
  recs.filter (fun r => decide (r.carac ≠ "ND"))

/-- Line 116: the centers at which a material appears (as a list; only
membership matters for the superset test). -/
def centrosDe (recs : List RegistroInv) (m : Nat) : List String :=
  (recs.filter (fun r => decide (r.material = m))).map (fun r => r.centro)

/-- Lines 117–119: a material is "valid" when its center set is a
superset of `CENTROS_REQUERIDOS = {"EXPO", "LARE"}`. -/
def materialValido (recs : List RegistroInv) (m : Nat) : Prop :=
  "EXPO" ∈ centrosDe recs m ∧ "LARE" ∈ centrosDe recs m

instance (recs : List RegistroInv) (m : Nat) :
    Decidable (materialValido recs m) := by
  unfold materialValido; infer_instance

/-- Lines 115–123 of `app.py`: drop `ND` rows, then drop the `EXPO` row
of every valid material. -/
def prepararInventarios (recs : List RegistroInv) : List RegistroInv :=
  let sinND := filtrarND recs
  sinND.filter (fun r =>
    ! decide (materialValido sinND r.material ∧ r.centro = "EXPO"))

/-! ### Brand Aggregator (`generar_reporte_marcas`, lines 89–93)

pandas divides float columns without a zero-denominator guard: `x / 0`
is `+inf`/`-inf` for nonzero `x` and `NaN` for `x = 0`.  `FVal` models
the IEEE outcome of that division. -/

/-- Outcome of a pandas float computation: finite, infinite, or NaN. -/
inductive FVal where
  | fin (q : ℚ)
  | posInf
  | negInf
  | nan
deriving DecidableEq, Repr

/-- IEEE division of two (exact) numbers, as pandas performs it. -/
def fdivInt (a b : Int) : FVal :=
  if b = 0 then
    (if a = 0 then FVal.nan else if 0 < a then FVal.posInf else FVal.negInf)
  else FVal.fin ((a : ℚ) / (b : ℚ))

/-- Multiplication by a finite constant (`* 100`); infinities and NaN
pass through (the constant used is positive). -/
def fescala (v : FVal) (c : ℚ) : FVal :=
  match v with
  | FVal.fin q => FVal.fin (q * c)
  | x => x

/-- `.round(2)`; infinities and NaN pass through. -/
def fredondeo2 (v : FVal) : FVal :=
  match v with
  | FVal.fin q => FVal.fin ((round (q * 100) : ℤ) / (100 : ℚ))
  | x => x

/-- `pedidos.groupby('Marca')['Ctd. Sol.'].sum()` at one brand
(line 89 of `app.py`; `Ctd. Sol.` is the requested quantity). -/
def valorTotalPedidos (rs : List Resultado) (marca : String) : Int :=
  ((rs.filter (fun r => decide (r.linea.descripcion = marca))).map
    (fun r => r.linea.pendiente)).sum

/-- `pedidos.groupby('Marca')['Faltante'].sum()` at one brand (line 92). -/
def valorFaltante (rs : List Resultado) (marca : String) : Int :=
  ((rs.filter (fun r => decide (r.linea.descripcion = marca))).map
    (fun r => r.faltante)).sum

/-- Line 93 of `app.py`: `(Valor Faltante / Valor Total Pedidos *
100).round(2)` at one brand — the division carries no guard. -/
def porcentajeFaltante (rs : List Resultado) (marca : String) : FVal :=
  fredondeo2 (fescala (fdivInt (valorFaltante rs marca)
    (valorTotalPedidos rs marca)) 100)

/-! ### The vectorised variant (`application/use_cases.py`, lines 135–147)

`mapa_inventario`/`mapa_transito` are `defaultdict(float, ...)`, so an
absent material maps to 0; `Faltante = max(0, Pendiente - Inventario)`,
`Faltante con Tránsito = max(0, Faltante - Tránsito)`, and `Estatus` is
computed per row. -/

/-- `Faltante` of `use_cases.py` line 143. -/
def ucFaltante (inv : Pool) (l : Linea) : Int :=
  max 0 (l.pendiente - (inv l.material).getD 0)

/-- `Faltante con Tránsito` of `use_cases.py` line 144. -/
def ucFaltanteConTransito (inv tra : Pool) (l : Linea) : Int :=
  max 0 (ucFaltante inv l - (tra l.material).getD 0)

/-- `Estatus` of `use_cases.py` line 147 (per row, not per order). -/
def ucEstatus (inv tra : Pool) (l : Linea) : String :=
  if ucFaltanteConTransito inv tra l = 0 then "Completo" else "Incompleto"

/-! ### Concrete inputs used as test vectors and counterexamples -/

/-- Scenario A, first line: requests 8 of material 1. -/
def lineaA1 : Linea :=
  ⟨1, 1, "Marca privada Exp.", "Cliente", 1, "ZFER", "P1", 8, 1, 1, ""⟩

/-- Scenario A, second line: requests 5 of material 1. -/
def lineaA2 : Linea :=
  ⟨1, 2, "Marca privada Exp.", "Cliente", 1, "ZFER", "P1", 5, 1, 1, ""⟩

/-- Scenario A on-hand pool: material 1 at 10. -/
def poolInvA : Pool := fun m => if m = 1 then some 10 else none

/-- Scenario A in-transit pool: material 1 at 5. -/
def poolTraA : Pool := fun m => if m = 1 then some 5 else none

/-- A `ZCOM` (bypass) line requesting 5 of material 1. -/
def lineaCE : Linea :=
  ⟨7, 1, "Marca privada Exp.", "Cliente", 1, "ZCOM", "P1", 5, 1, 1, ""⟩

/-- On-hand pool holding only 2 of material 1. -/
def poolInvCE : Pool := fun m => if m = 1 then some 2 else none

/-- A `ZCOM` (bypass) line whose material 3 is absent from the pools. -/
def lineaCEAusente : Linea :=
  ⟨7, 1, "Marca privada Exp.", "Cliente", 3, "ZCOM", "P1", 5, 1, 1, ""⟩

/-- A non-bypassed line requesting 4 of material 7 (absent everywhere). -/
def lineaB : Linea :=
  ⟨9, 1, "Marca privada Exp.", "Cliente", 7, "ZFER", "P1", 4, 1, 1, ""⟩

/-- Brand `MarcaB`: requests 0 of material 1 (recorded on hand at −3). -/
def lineaPB : Linea := ⟨11, 1, "MarcaB", "Cliente", 1, "ZFER", "P1", 0, 1, 1, ""⟩

/-- Brand `MarcaZ`: requests 0 of the absent material 9. -/
def lineaPZ : Linea := ⟨11, 1, "MarcaZ", "Cliente", 9, "ZFER", "P1", 0, 1, 1, ""⟩

/-- On-hand pool recording material 1 at −3 (negative stock report). -/
def poolInvP : Pool := fun m => if m = 1 then some (-3) else none

/-- A processed row with no shortage, for the status-pass test vector. -/
def resW : Resultado := ⟨lineaA1, 0, 0, 0, 0, "", ""⟩

/-- Two lines with equal sort keys (same date, order and brand priority). -/
def lineaW1 : Linea :=
  ⟨5, 1, "Marca privada Exp.", "Cliente", 1, "ZFER", "P1", 2, 3, 1, ""⟩

/-- Second line with the same sort key as `lineaW1`. -/
def lineaW2 : Linea :=
  ⟨5, 1, "Marca privada Exp.", "Cliente", 2, "ZFER", "P1", 6, 3, 1, ""⟩

/-- A line that is both `ZCOM` and at plant `P5`. -/
def lineaZP : Linea :=
  ⟨13, 1, "Marca privada Exp.", "Cliente", 1, "ZCOM", "P5", 3, 1, 1, ""⟩

end Truper

namespace Truper

/-! ## Helper lemmas and theorems -/

open Truper

-- omega with Int min/max
example (d q : Int) : d = min d q + (d - min d q) := by omega
example (d q : Int) (h : ¬ q ≤ d) : max 0 (q - d) = q - d := by omega


theorem actualizar_self (p : Pool) (m : Nat) (v : Int) : actualizar p m v m = some v := by
  simp [actualizar]

theorem actualizar_ne (p : Pool) (m : Nat) (v : Int) (m2 : Nat) (h : m2 ≠ m) :
    actualizar p m v m2 = p m2 := by
  simp [actualizar, h]

theorem pasoInventario_some (inv : Pool) (l : Linea) (d : Int)
    (hd : inv l.material = some d) :
    pasoInventario inv l =
      (d, max 0 (l.pendiente - d),
        actualizar inv l.material (d - min d l.pendiente)) := by
  simp only [pasoInventario, hd]
  rcases le_or_lt l.pendiente d with h | h
  · rw [if_pos h]
    have h1 : max 0 (l.pendiente - d) = 0 := by omega
    have h2 : d - min d l.pendiente = d - l.pendiente := by omega
    rw [h1, h2]
  · rw [if_neg (not_le.mpr h)]
    have h1 : max 0 (l.pendiente - d) = l.pendiente - d := by omega
    have h2 : d - min d l.pendiente = 0 := by omega
    rw [h1, h2]

theorem pasoInventario_none (inv : Pool) (l : Linea) (hd : inv l.material = none) :
    pasoInventario inv l = (0, 0, inv) := by
  simp [pasoInventario, hd]

theorem pasoTransito_some (tra : Pool) (mat : Nat) (falt : Int) (t : Int)
    (ht : tra mat = some t) :
    pasoTransito tra mat falt =
      (t, max 0 (falt - t), actualizar tra mat (t - min t falt)) := by
  simp only [pasoTransito, ht]
  rcases le_or_lt falt t with h | h
  · rw [if_pos h]
    have h1 : max 0 (falt - t) = 0 := by omega
    have h2 : t - min t falt = t - falt := by omega
    rw [h1, h2]
  · rw [if_neg (not_le.mpr h)]
    have h1 : max 0 (falt - t) = falt - t := by omega
    have h2 : t - min t falt = 0 := by omega
    rw [h1, h2]

theorem pasoTransito_none (tra : Pool) (mat : Nat) (falt : Int) (ht : tra mat = none) :
    pasoTransito tra mat falt = (0, 0, tra) := by
  simp [pasoTransito, ht]

theorem procesarLinea_inv (inv tra : Pool) (l : Linea) :
    (procesarLinea inv tra l).inv = (pasoInventario inv l).2.2 := rfl

theorem procesarLinea_tra (inv tra : Pool) (l : Linea) :
    (procesarLinea inv tra l).tra =
      (pasoTransito tra l.material (pasoInventario inv l).2.1).2.2 := rfl

theorem asignadoInv_some (inv : Pool) (l : Linea) (d : Int)
    (hd : inv l.material = some d) :
    asignadoInv inv l = min d l.pendiente := by
  simp [asignadoInv, hd]

theorem asignadoInv_none (inv : Pool) (l : Linea) (hd : inv l.material = none) :
    asignadoInv inv l = 0 := by
  simp [asignadoInv, hd]

theorem asignadoTra_some (inv tra : Pool) (l : Linea) (t : Int)
    (ht : tra l.material = some t) :
    asignadoTra inv tra l = min t (pasoInventario inv l).2.1 := by
  simp [asignadoTra, ht]

theorem asignadoTra_none (inv tra : Pool) (l : Linea) (ht : tra l.material = none) :
    asignadoTra inv tra l = 0 := by
  simp [asignadoTra, ht]

theorem pasoInventario_pool_self (inv : Pool) (l : Linea) (d : Int)
    (hd : inv l.material = some d) :
    ((pasoInventario inv l).2.2) l.material = some (d - min d l.pendiente) := by
  rw [pasoInventario_some inv l d hd]
  exact actualizar_self inv l.material _

theorem pasoInventario_pool_ne (inv : Pool) (l : Linea) (m : Nat)
    (hm : m ≠ l.material) :
    ((pasoInventario inv l).2.2) m = inv m := by
  cases hd : inv l.material with
  | none => rw [pasoInventario_none inv l hd]
  | some d =>
    rw [pasoInventario_some inv l d hd]
    exact actualizar_ne inv l.material _ m hm

theorem pasoTransito_pool_self (tra : Pool) (mat : Nat) (falt t : Int)
    (ht : tra mat = some t) :
    ((pasoTransito tra mat falt).2.2) mat = some (t - min t falt) := by
  rw [pasoTransito_some tra mat falt t ht]
  exact actualizar_self tra mat _

theorem pasoTransito_pool_ne (tra : Pool) (mat : Nat) (falt : Int) (m : Nat)
    (hm : m ≠ mat) :
    ((pasoTransito tra mat falt).2.2) m = tra m := by
  cases ht : tra mat with
  | none => rw [pasoTransito_none tra mat falt ht]
  | some t =>
    rw [pasoTransito_some tra mat falt t ht]
    exact actualizar_ne tra mat _ m hm

theorem conservacion_linea (inv tra : Pool) (l : Linea) (m : Nat) :
    ((inv m).getD 0 =
      (if l.material = m then asignadoInv inv l else 0) +
        (((procesarLinea inv tra l).inv) m).getD 0)
  ∧ ((tra m).getD 0 =
      (if l.material = m then asignadoTra inv tra l else 0) +
        (((procesarLinea inv tra l).tra) m).getD 0) := by
  rw [procesarLinea_inv, procesarLinea_tra]
  constructor
  · by_cases hm : l.material = m
    · rw [← hm, if_pos rfl]
      cases hd : inv l.material with
      | none =>
        rw [pasoInventario_none inv l hd, asignadoInv_none inv l hd]
        simp [hd]
      | some d =>
        rw [asignadoInv_some inv l d hd, pasoInventario_pool_self inv l d hd]
        simp only [hd, Option.getD_some]
        omega
    · rw [if_neg hm, pasoInventario_pool_ne inv l m (fun h => hm h.symm)]
      omega
  · by_cases hm : l.material = m
    · rw [← hm, if_pos rfl]
      cases ht : tra l.material with
      | none =>
        rw [pasoTransito_none tra l.material _ ht, asignadoTra_none inv tra l ht]
        simp [ht]
      | some t =>
        rw [asignadoTra_some inv tra l t ht,
          pasoTransito_pool_self tra l.material _ t ht]
        simp only [ht, Option.getD_some]
        omega
    · rw [if_neg hm, pasoTransito_pool_ne tra l.material _ m (fun h => hm h.symm)]
      omega

theorem faltante_nonneg (inv : Pool) (l : Linea) :
    0 ≤ (pasoInventario inv l).2.1 := by
  cases hd : inv l.material with
  | none => rw [pasoInventario_none inv l hd]
  | some d =>
    rw [pasoInventario_some inv l d hd]
    simp only
    omega

theorem paso_nonneg_mono (inv tra : Pool) (l : Linea)
    (hq : 0 ≤ l.pendiente)
    (hinv : ∀ m, 0 ≤ ((inv m).getD 0)) (htra : ∀ m, 0 ≤ ((tra m).getD 0)) :
    ∀ m, (0 ≤ (((procesarLinea inv tra l).inv m).getD 0)
        ∧ (((procesarLinea inv tra l).inv m).getD 0) ≤ (inv m).getD 0)
      ∧ (0 ≤ (((procesarLinea inv tra l).tra m).getD 0)
        ∧ (((procesarLinea inv tra l).tra m).getD 0) ≤ (tra m).getD 0) := by
  intro m
  rw [procesarLinea_inv, procesarLinea_tra]
  constructor
  · by_cases hm : m = l.material
    · rw [hm]
      cases hd : inv l.material with
      | none => simp [pasoInventario_none inv l hd, hd]
      | some d =>
        have hd0 : 0 ≤ d := by have h := hinv l.material; rw [hd] at h; exact h
        rw [pasoInventario_pool_self inv l d hd]
        simp only [hd, Option.getD_some]
        omega
    · rw [pasoInventario_pool_ne inv l m hm]; exact ⟨hinv _, le_refl _⟩
  · have hf : 0 ≤ (pasoInventario inv l).2.1 := faltante_nonneg inv l
    by_cases hm : m = l.material
    · rw [hm]
      cases ht : tra l.material with
      | none => simp [pasoTransito_none tra l.material _ ht, ht]
      | some t =>
        have ht0 : 0 ≤ t := by have h := htra l.material; rw [ht] at h; exact h
        rw [pasoTransito_pool_self tra l.material _ t ht]
        simp only [ht, Option.getD_some]
        omega
    · rw [pasoTransito_pool_ne tra l.material _ m hm]; exact ⟨htra _, le_refl _⟩

theorem procesarLineas_cons (l : Linea) (ls : List Linea) (inv tra : Pool) :
    procesarLineas (l :: ls) inv tra =
      ((procesarLinea inv tra l).resultado ::
        (procesarLineas ls (procesarLinea inv tra l).inv
          (procesarLinea inv tra l).tra).1,
       (procesarLineas ls (procesarLinea inv tra l).inv
          (procesarLinea inv tra l).tra).2) := rfl

/-- C6: stock is conserved — for every material, the initial value of a
pool equals the total quantity the run allocates to that material from
that pool plus the final pool value; this holds for the on-hand pool and
for the in-transit pool. -/
theorem conservacion_stock (ls : List Linea) :
    ∀ (inv tra : Pool) (m : Nat),
      ((inv m).getD 0 =
        asignacionesInv ls inv tra m +
          (((procesarLineas ls inv tra).2.1) m).getD 0)
    ∧ ((tra m).getD 0 =
        asignacionesTra ls inv tra m +
          (((procesarLineas ls inv tra).2.2) m).getD 0) := by
  induction ls with
  | nil => intro inv tra m; simp [procesarLineas, asignacionesInv, asignacionesTra]
  | cons l ls ih =>
    intro inv tra m
    have h := conservacion_linea inv tra l m
    have hih := ih (procesarLinea inv tra l).inv (procesarLinea inv tra l).tra m
    rw [procesarLineas_cons]
    simp only [asignacionesInv, asignacionesTra]
    constructor
    · omega
    · omega

/-- Run-level half of C7: with non-negative requests and non-negative
initial pools, every final pool value is non-negative and bounded by its
initial value (quantifying over the starting pools covers every
intermediate state of a longer run). -/
theorem pools_no_crecientes_aux (ls : List Linea) :
    ∀ (inv tra : Pool),
      (∀ l ∈ ls, 0 ≤ l.pendiente) →
      (∀ m, 0 ≤ (inv m).getD 0) → (∀ m, 0 ≤ (tra m).getD 0) →
      ∀ m, (0 ≤ (((procesarLineas ls inv tra).2.1) m).getD 0
          ∧ (((procesarLineas ls inv tra).2.1) m).getD 0 ≤ (inv m).getD 0)
        ∧ (0 ≤ (((procesarLineas ls inv tra).2.2) m).getD 0
          ∧ (((procesarLineas ls inv tra).2.2) m).getD 0 ≤ (tra m).getD 0) := by
  induction ls with
  | nil => intro inv tra _ hinv htra m; exact ⟨⟨hinv m, le_refl _⟩, ⟨htra m, le_refl _⟩⟩
  | cons l ls ih =>
    intro inv tra hq hinv htra m
    have hstep := paso_nonneg_mono inv tra l (hq l (List.mem_cons_self l ls)) hinv htra
    have hih := ih (procesarLinea inv tra l).inv (procesarLinea inv tra l).tra
      (fun x hx => hq x (List.mem_cons_of_mem l hx))
      (fun m2 => (hstep m2).1.1) (fun m2 => (hstep m2).2.1) m
    rw [procesarLineas_cons]
    refine ⟨⟨hih.1.1, le_trans hih.1.2 (hstep m).1.2⟩,
      ⟨hih.2.1, le_trans hih.2.2 (hstep m).2.2⟩⟩

theorem sumaFT_cons (x : Resultado) (xs : List Resultado) (p : Nat) :
    sumaFaltantesTransito (x :: xs) p =
      (if x.linea.docVentas = p then x.faltanteTransito else 0) +
        sumaFaltantesTransito xs p := by
  unfold sumaFaltantesTransito
  by_cases hd : x.linea.docVentas = p
  · simp [hd]
  · simp [hd]

theorem sumaFT_map (f : Resultado → Resultado)
    (hf : ∀ r, (f r).linea = r.linea ∧ (f r).faltanteTransito = r.faltanteTransito) :
    ∀ (rs : List Resultado) (p : Nat),
      sumaFaltantesTransito (rs.map f) p = sumaFaltantesTransito rs p := by
  intro rs p
  induction rs with
  | nil => rfl
  | cons r rs ih =>
    rw [List.map_cons, sumaFT_cons, sumaFT_cons, (hf r).1, (hf r).2, ih]

theorem sumaFT_aplicar (rs : List Resultado) (p : Nat) :
    sumaFaltantesTransito (aplicarEstatus rs) p = sumaFaltantesTransito rs p :=
  sumaFT_map (finalizarResultado rs) (fun _ => ⟨rfl, rfl⟩) rs p

/-- C3: after the status pass, a row's `Estatus` is `Completo` exactly
when the sum of `Faltante Tránsito` over all rows of its order is zero,
`Incompleto` exactly otherwise, and every row of the same order carries
the same status. -/
theorem estatus_por_pedido (rs : List Resultado) (r : Resultado)
    (hr : r ∈ aplicarEstatus rs) :
    (r.estatus = "Completo" ↔
      sumaFaltantesTransito (aplicarEstatus rs) r.linea.docVentas = 0)
  ∧ (r.estatus = "Incompleto" ↔
      ¬ sumaFaltantesTransito (aplicarEstatus rs) r.linea.docVentas = 0)
  ∧ ∀ r2 ∈ aplicarEstatus rs, r2.linea.docVentas = r.linea.docVentas →
      r2.estatus = r.estatus := by
  obtain ⟨r0, hr0, rfl⟩ := List.mem_map.mp hr
  rw [sumaFT_aplicar]
  have hlin : (finalizarResultado rs r0).linea = r0.linea := rfl
  rw [hlin]
  constructor
  · by_cases hs : sumaFaltantesTransito rs r0.linea.docVentas = 0 <;>
      simp [finalizarResultado, hs]
  constructor
  · by_cases hs : sumaFaltantesTransito rs r0.linea.docVentas = 0 <;>
      simp [finalizarResultado, hs]
  · intro r2 h2 heq
    obtain ⟨r02, h02, rfl⟩ := List.mem_map.mp h2
    have hlin2 : (finalizarResultado rs r02).linea = r02.linea := rfl
    rw [hlin2] at heq
    simp only [finalizarResultado, heq]

theorem claveLe_of_eq {a b : Linea} (h : claveOrden a = claveOrden b) :
    claveLe a b := by
  unfold claveLe
  rw [h]
  unfold lexLe
  omega

/-- C4: the Normalizer sorts the surviving, brand-overridden rows
ascending by the key (`Embarque`, `Doc.ventas`, `Marca Prioridad`) where
the priority is 0 exactly for the American-catalog brand, it permutes
them (no row is lost), and the sort is stable: two rows with equal keys
keep their relative input order. -/
theorem normalizar_ordena_estable (ls : List Linea) (bd : List (Nat × String)) :
    List.Sorted claveLe (normalizar ls bd)
  ∧ List.Perm (normalizar ls bd) (aplicarMarcas bd (filtrarPedidos ls))
  ∧ ∀ a b : Linea, claveOrden a = claveOrden b →
      List.Sublist [a, b] (aplicarMarcas bd (filtrarPedidos ls)) →
      List.Sublist [a, b] (normalizar ls bd) := by
  refine ⟨List.sorted_insertionSort claveLe _,
    List.perm_insertionSort claveLe _, ?_⟩
  intro a b hk hs
  exact List.pair_sublist_insertionSort (claveLe_of_eq hk) hs

/-- C9: a raw inventory record survives the Stock-Ledger preparation
exactly when its planning flag is not `ND` and it is not the `EXPO`
record of a material whose center set among the `ND`-filtered records
contains both `EXPO` and `LARE`; in particular a material without both
centers keeps all of its non-`ND` records. -/
theorem preparar_inventarios_caracterizacion (recs : List RegistroInv)
    (r : RegistroInv) :
    r ∈ prepararInventarios recs ↔
      r ∈ recs ∧ r.carac ≠ "ND" ∧
        ¬(materialValido (filtrarND recs) r.material ∧ r.centro = "EXPO") := by
  unfold prepararInventarios filtrarND
  simp only [List.mem_filter, decide_eq_true_eq, Bool.not_eq_true', decide_eq_false_iff_not]
  tauto

/-- C10: for a line that is both of material type `ZCOM` and at plant
`P5`, the bypass branch assigns the tag `ZCOM`, not `P5/Expo` — the
material-type test precedes the plant test in the `if`/`elif` chain. -/
theorem zcom_precede_planta5 (inv tra : Pool) (l : Linea)
    (h1 : l.tipoMaterial = "ZCOM") (h2 : l.planta = "P5") :
    (procesarLinea inv tra l).resultado.horarioEntrega = "ZCOM" := by
  show horarioBypass l = "ZCOM"
  unfold horarioBypass
  rw [if_pos h1]

/-- C1 (amended): for a bypassed line (`ZCOM` material type or plant
`P5`) whose material is absent from both pools, the pass leaves shortage
and shortage-after-transit at 0, assigns the bypass tag, leaves both
pools untouched, and the status pass preserves all three values into the
final output.  (The unamended claim is false: allocation is not skipped
for bypassed lines — see the counterexample.) -/
theorem bypass_material_ausente (inv tra : Pool) (l : Linea)
    (hb : l.tipoMaterial = "ZCOM" ∨ l.planta = "P5")
    (hi : inv l.material = none) (ht : tra l.material = none) :
    (procesarLinea inv tra l).resultado.faltante = 0
  ∧ (procesarLinea inv tra l).resultado.faltanteTransito = 0
  ∧ (procesarLinea inv tra l).resultado.horarioEntrega
      = (if l.tipoMaterial = "ZCOM" then "ZCOM" else "P5/Expo")
  ∧ (procesarLinea inv tra l).inv = inv
  ∧ (procesarLinea inv tra l).tra = tra
  ∧ ∀ rs : List Resultado,
      (finalizarResultado rs (procesarLinea inv tra l).resultado).faltante = 0
    ∧ (finalizarResultado rs (procesarLinea inv tra l).resultado).faltanteTransito = 0
    ∧ (finalizarResultado rs (procesarLinea inv tra l).resultado).horarioEntrega
        = (if l.tipoMaterial = "ZCOM" then "ZCOM" else "P5/Expo") := by
  have hfalt : (procesarLinea inv tra l).resultado.faltante = 0 := by
    show (pasoInventario inv l).2.1 = 0
    rw [pasoInventario_none inv l hi]
  have hft : (procesarLinea inv tra l).resultado.faltanteTransito = 0 := by
    show (pasoTransito tra l.material (pasoInventario inv l).2.1).2.1 = 0
    rw [pasoTransito_none tra l.material _ ht]
  have hhor : (procesarLinea inv tra l).resultado.horarioEntrega
      = (if l.tipoMaterial = "ZCOM" then "ZCOM" else "P5/Expo") := by
    show horarioBypass l = _
    unfold horarioBypass
    by_cases hz : l.tipoMaterial = "ZCOM"
    · rw [if_pos hz, if_pos hz]
    · have hp : l.planta = "P5" := hb.resolve_left hz
      rw [if_neg hz, if_pos hp, if_neg hz]
  refine ⟨hfalt, hft, hhor, ?_, ?_, ?_⟩
  · show (pasoInventario inv l).2.2 = inv
    rw [pasoInventario_none inv l hi]
  · show (pasoTransito tra l.material (pasoInventario inv l).2.1).2.2 = tra
    rw [pasoTransito_none tra l.material _ ht]
  · intro rs
    refine ⟨hfalt, hft, ?_⟩
    show (if 0 < (procesarLinea inv tra l).resultado.faltante ∧
        (procesarLinea inv tra l).resultado.faltanteTransito = 0 then "Transito"
      else (procesarLinea inv tra l).resultado.horarioEntrega) = _
    rw [hfalt, hhor]
    norm_num

/-- Single-line half of C5: a non-bypassed line whose material is in
both pools observes the pool values, takes `min available requested`
from the on-hand pool leaving the rest, records the shortage
`max 0 (requested - available)`, covers it from the in-transit pool the
same way, and touches no other material's entry. -/
theorem asignacion_voraz_paso (inv tra : Pool) (l : Linea) (d t : Int)
    (hz : l.tipoMaterial ≠ "ZCOM") (hp : l.planta ≠ "P5")
    (hd : inv l.material = some d) (ht : tra l.material = some t) :
    (procesarLinea inv tra l).resultado.inventario = d
  ∧ (procesarLinea inv tra l).resultado.faltante = max 0 (l.pendiente - d)
  ∧ (procesarLinea inv tra l).inv l.material = some (d - min d l.pendiente)
  ∧ (∀ m, m ≠ l.material → (procesarLinea inv tra l).inv m = inv m)
  ∧ (procesarLinea inv tra l).resultado.transito = t
  ∧ (procesarLinea inv tra l).resultado.faltanteTransito
      = max 0 (max 0 (l.pendiente - d) - t)
  ∧ (procesarLinea inv tra l).tra l.material
      = some (t - min t (max 0 (l.pendiente - d)))
  ∧ (∀ m, m ≠ l.material → (procesarLinea inv tra l).tra m = tra m) := by
  have hX : (pasoInventario inv l).2.1 = max 0 (l.pendiente - d) := by
    rw [pasoInventario_some inv l d hd]
  refine ⟨?_, hX, ?_, ?_, ?_, ?_, ?_, ?_⟩
  · show (pasoInventario inv l).1 = d
    rw [pasoInventario_some inv l d hd]
  · exact pasoInventario_pool_self inv l d hd
  · intro m hm
    exact pasoInventario_pool_ne inv l m hm
  · show (pasoTransito tra l.material (pasoInventario inv l).2.1).1 = t
    rw [pasoTransito_some tra l.material _ t ht]
  · show (pasoTransito tra l.material (pasoInventario inv l).2.1).2.1 = _
    rw [hX, pasoTransito_some tra l.material _ t ht]
  · show (pasoTransito tra l.material (pasoInventario inv l).2.1).2.2 l.material = _
    rw [hX]
    exact pasoTransito_pool_self tra l.material _ t ht
  · intro m hm
    exact pasoTransito_pool_ne tra l.material _ m hm

/-! ## Claim theorems: counterexamples, closed evaluations and witnesses -/

/-- C1 (counterexample): a `ZCOM` line requesting 5 of a material the
on-hand pool holds at 2 ends with `Faltante = 3` (not 0), with its tag
overwritten to `Transito` (not `ZCOM`), and with the pool depleted from
2 to 0 — the bypass branch does not skip allocation and its values do
not survive to the final output. -/
theorem bypass_no_salta_asignacion :
    lineaCE.tipoMaterial = "ZCOM"
  ∧ ((ejecutar [lineaCE] poolInvCE poolVacio).1.map
      (fun r => (r.faltante, r.faltanteTransito, r.horarioEntrega)))
      = [(3, 0, "Transito")]
  ∧ (ejecutar [lineaCE] poolInvCE poolVacio).2.1 1 = some 0
  ∧ poolInvCE 1 = some 2 := by
  decide

/-- Witness for C1 (amended) at a concrete bypassed line with absent
material. -/
theorem bypass_material_ausente_testigo :
    (procesarLinea poolVacio poolVacio lineaCEAusente).resultado.faltante = 0
  ∧ (procesarLinea poolVacio poolVacio lineaCEAusente).resultado.faltanteTransito
      = 0
  ∧ (procesarLinea poolVacio poolVacio lineaCEAusente).inv = poolVacio :=
  ⟨(bypass_material_ausente poolVacio poolVacio lineaCEAusente
      (Or.inl rfl) rfl rfl).1,
   (bypass_material_ausente poolVacio poolVacio lineaCEAusente
      (Or.inl rfl) rfl rfl).2.1,
   (bypass_material_ausente poolVacio poolVacio lineaCEAusente
      (Or.inl rfl) rfl rfl).2.2.2.1⟩

/-- C2: in `app.py` a non-bypassed line requesting 4 of a material
absent from both pools keeps `Faltante = 0` and `Faltante Tránsito = 0`
and its order is classified `Completo`, while the claim (and the
`use_cases.py` variant, evaluated on the same input in the remaining
conjuncts) demands shortage 4 and an incomplete classification. -/
theorem material_ausente_divergencia :
    ((ejecutar [lineaB] poolVacio poolVacio).1.map
      (fun r => (r.faltante, r.faltanteTransito, r.estatus)))
      = [(0, 0, "Completo")]
  ∧ lineaB.pendiente = 4
  ∧ ucFaltante poolVacio lineaB = 4
  ∧ ucFaltanteConTransito poolVacio poolVacio lineaB = 4
  ∧ ucEstatus poolVacio poolVacio lineaB = "Incompleto" := by
  decide

/-- Witness for C3 at a one-row table with zero shortage-after-transit. -/
theorem estatus_por_pedido_testigo :
    (finalizarResultado [resW] resW).estatus = "Completo" ↔
      sumaFaltantesTransito (aplicarEstatus [resW])
        (finalizarResultado [resW] resW).linea.docVentas = 0 :=
  (estatus_por_pedido [resW] (finalizarResultado [resW] resW) (by decide)).1

/-- Witness for C4: two concrete surviving lines with equal sort keys
keep their input order through the Normalizer. -/
theorem normalizar_ordena_estable_testigo :
    claveOrden lineaW1 = claveOrden lineaW2
  ∧ List.Sublist [lineaW1, lineaW2] (normalizar [lineaW1, lineaW2] []) :=
  ⟨by decide,
   (normalizar_ordena_estable [lineaW1, lineaW2] []).2.2 lineaW1 lineaW2
     (by decide) (by decide)⟩

/-- C5: allocation is a sequential greedy depletion — a non-bypassed
line takes `min available requested` from the on-hand pool, records
shortage `max 0 (requested - available)`, covers the shortage from the
in-transit pool the same way and leaves the depleted values for later
lines; and on Scenario A (one material, on-hand 10, in-transit 5, lines
requesting 8 then 5) the shortages are (0,0) and (3,0) with final pools
0 and 2. -/
theorem asignacion_voraz :
    (∀ (inv tra : Pool) (l : Linea) (d t : Int),
      l.tipoMaterial ≠ "ZCOM" → l.planta ≠ "P5" →
      inv l.material = some d → tra l.material = some t →
      (procesarLinea inv tra l).resultado.inventario = d
    ∧ (procesarLinea inv tra l).resultado.faltante = max 0 (l.pendiente - d)
    ∧ (procesarLinea inv tra l).inv l.material = some (d - min d l.pendiente)
    ∧ (∀ m, m ≠ l.material → (procesarLinea inv tra l).inv m = inv m)
    ∧ (procesarLinea inv tra l).resultado.transito = t
    ∧ (procesarLinea inv tra l).resultado.faltanteTransito
        = max 0 (max 0 (l.pendiente - d) - t)
    ∧ (procesarLinea inv tra l).tra l.material
        = some (t - min t (max 0 (l.pendiente - d)))
    ∧ (∀ m, m ≠ l.material → (procesarLinea inv tra l).tra m = tra m))
  ∧ ((procesarLineas [lineaA1, lineaA2] poolInvA poolTraA).1.map
      (fun r => (r.faltante, r.faltanteTransito)) = [(0, 0), (3, 0)]
    ∧ (procesarLineas [lineaA1, lineaA2] poolInvA poolTraA).2.1 1 = some 0
    ∧ (procesarLineas [lineaA1, lineaA2] poolInvA poolTraA).2.2 1 = some 2) :=
  ⟨fun inv tra l d t hz hp hd ht =>
    asignacion_voraz_paso inv tra l d t hz hp hd ht,
   by decide⟩

/-- Witness for C5 at Scenario A's first line. -/
theorem asignacion_voraz_testigo :
    (procesarLinea poolInvA poolTraA lineaA1).resultado.inventario = 10
  ∧ (procesarLinea poolInvA poolTraA lineaA1).resultado.faltante
      = max 0 (lineaA1.pendiente - 10) :=
  ⟨(asignacion_voraz.1 poolInvA poolTraA lineaA1 10 5
      (by decide) (by decide) rfl rfl).1,
   (asignacion_voraz.1 poolInvA poolTraA lineaA1 10 5
      (by decide) (by decide) rfl rfl).2.1⟩

/-- C7: with non-negative requests and non-negative initial pools,
processing one line never increases a pool value and never drives one
below zero, and over a whole run every pool value stays non-negative and
bounded by its initial value (the run half quantifies over the starting
pools, so it applies at every step of a longer run). -/
theorem pools_no_crecientes :
    (∀ (inv tra : Pool) (l : Linea),
      0 ≤ l.pendiente →
      (∀ m, 0 ≤ (inv m).getD 0) → (∀ m, 0 ≤ (tra m).getD 0) →
      ∀ m, (0 ≤ (((procesarLinea inv tra l).inv m).getD 0)
          ∧ (((procesarLinea inv tra l).inv m).getD 0) ≤ (inv m).getD 0)
        ∧ (0 ≤ (((procesarLinea inv tra l).tra m).getD 0)
          ∧ (((procesarLinea inv tra l).tra m).getD 0) ≤ (tra m).getD 0))
  ∧ (∀ (ls : List Linea) (inv tra : Pool),
      (∀ l ∈ ls, 0 ≤ l.pendiente) →
      (∀ m, 0 ≤ (inv m).getD 0) → (∀ m, 0 ≤ (tra m).getD 0) →
      ∀ m, (0 ≤ (((procesarLineas ls inv tra).2.1) m).getD 0
          ∧ (((procesarLineas ls inv tra).2.1) m).getD 0 ≤ (inv m).getD 0)
        ∧ (0 ≤ (((procesarLineas ls inv tra).2.2) m).getD 0
          ∧ (((procesarLineas ls inv tra).2.2) m).getD 0 ≤ (tra m).getD 0)) :=
  ⟨fun inv tra l hq hinv htra => paso_nonneg_mono inv tra l hq hinv htra,
   fun ls inv tra hq hinv htra => pools_no_crecientes_aux ls inv tra hq hinv htra⟩

/-- Witness for C7 on Scenario A, read at material 1. -/
theorem pools_no_crecientes_testigo :
    (0 ≤ (((procesarLineas [lineaA1, lineaA2] poolInvA poolTraA).2.1) 1).getD 0
    ∧ (((procesarLineas [lineaA1, lineaA2] poolInvA poolTraA).2.1) 1).getD 0
        ≤ (poolInvA 1).getD 0)
  ∧ (0 ≤ (((procesarLineas [lineaA1, lineaA2] poolInvA poolTraA).2.2) 1).getD 0
    ∧ (((procesarLineas [lineaA1, lineaA2] poolInvA poolTraA).2.2) 1).getD 0
        ≤ (poolTraA 1).getD 0) := by
  have hinv : ∀ m, 0 ≤ (poolInvA m).getD 0 := by
    intro m; unfold poolInvA; split <;> decide
  have htra : ∀ m, 0 ≤ (poolTraA m).getD 0 := by
    intro m; unfold poolTraA; split <;> decide
  exact pools_no_crecientes.2 [lineaA1, lineaA2] poolInvA poolTraA
    (by decide) hinv htra 1

/-- C8: the brand report's `% Faltante` carries no division-by-zero
guard — a brand whose total requested quantity is 0 gets `+inf` when its
total shortage is positive (here brand `MarcaB`, shortage 3 from a
negative stock record) and `NaN` when it is 0 (brand `MarcaZ`), instead
of a guarded zero/undefined value. -/
theorem porcentaje_faltante_sin_guarda :
    valorTotalPedidos (ejecutar [lineaPB, lineaPZ] poolInvP poolVacio).1
      "MarcaB" = 0
  ∧ valorFaltante (ejecutar [lineaPB, lineaPZ] poolInvP poolVacio).1
      "MarcaB" = 3
  ∧ porcentajeFaltante (ejecutar [lineaPB, lineaPZ] poolInvP poolVacio).1
      "MarcaB" = FVal.posInf
  ∧ porcentajeFaltante (ejecutar [lineaPB, lineaPZ] poolInvP poolVacio).1
      "MarcaZ" = FVal.nan := by
  decide

/-- Witness for C10 at a concrete `ZCOM` + `P5` line. -/
theorem zcom_precede_planta5_testigo :
    (procesarLinea poolVacio poolVacio lineaZP).resultado.horarioEntrega
      = "ZCOM" :=
  zcom_precede_planta5 poolVacio poolVacio lineaZP rfl rfl

end Truper
